import Mathlib

/-!
Verification of the Raspberry Pi photo booth control script (camera.py).

The Python source is shallowly embedded: pure computations (filename
construction, padding arithmetic, folder health checks) become Lean
functions; the side-effecting parts of the session loop (overlay calls,
sleeps, GPIO accesses, file copies) are modelled as explicit event traces
produced by functions that mirror the control flow of the source,
line by line.  Machine-level concerns (actual GPIO, camera hardware,
wall-clock time) are parameters of the model.
-/

namespace PhotoBooth

/--
Configuration values required from camera-config.yaml (camera.py lines
70-104).  COPY_IMAGES_TO is the optional list of extra archive folders
(defaults to the empty list).  Pin numbers, rotation and flip flags play
no role in the verified properties and are omitted.
-/
structure Config where
  TOTAL_PICS : Nat
  PREP_DELAY : Nat
  COUNTDOWN : Nat
  PHOTO_W : Nat
  PHOTO_H : Nat
  SCREEN_W : Nat
  SCREEN_H : Nat
  DEBOUNCE_TIME : Nat
  TESTMODE_AUTOPRESS_BUTTON : Bool
  PROPOSE_GPU_EFFECTS : Bool
  SAVE_RAW_IMAGES_FOLDER : String
  COPY_IMAGES_TO : List String
  deriving Repr, DecidableEq

/-!
### Injectivity of the decimal rendering of naturals

Python's str(i) corresponds to Nat.repr in Lean.  The uniqueness of the
per-session filenames rests on distinct photo numbers rendering to
distinct digit strings, which we prove by exhibiting a left inverse
(a base-10 re-evaluation of the digit characters).
-/

/-- Numeric value of a decimal digit character. -/
def digitVal (c : Char) : Nat := c.toNat - 48

/-- One step of re-evaluating a decimal string, most significant first. -/
def digitStep (a : Nat) (c : Char) : Nat := 10 * a + digitVal c

theorem digitVal_digitChar {d : Nat} (h : d < 10) :
    digitVal (Nat.digitChar d) = d := by
  interval_cases d <;> rfl

theorem foldl_digitStep_toDigitsCore :
    ∀ (fuel n : Nat) (l : List Char), n < fuel →
      List.foldl digitStep 0 (Nat.toDigitsCore 10 fuel n l) =
        List.foldl digitStep n l := by
  intro fuel
  induction fuel with
  | zero => intro n l h; omega
  | succ fuel ih =>
    intro n l h
    by_cases h10 : n / 10 = 0
    · have hn : n < 10 := by omega
      have : Nat.toDigitsCore 10 (fuel + 1) n l = Nat.digitChar (n % 10) :: l := by
        simp [Nat.toDigitsCore, h10]
      rw [this]
      show List.foldl digitStep (digitStep 0 (Nat.digitChar (n % 10))) l = _
      have hs : digitStep 0 (Nat.digitChar (n % 10)) = n := by
        rw [Nat.mod_eq_of_lt hn]
        simp only [digitStep, Nat.mul_zero, Nat.zero_add]
        exact digitVal_digitChar hn
      rw [hs]
    · have hrec : Nat.toDigitsCore 10 (fuel + 1) n l =
          Nat.toDigitsCore 10 fuel (n / 10) (Nat.digitChar (n % 10) :: l) := by
        simp [Nat.toDigitsCore, h10]
      rw [hrec]
      have hlt : n / 10 < fuel := by
        have h1 : n / 10 < n := Nat.div_lt_self (by omega) (by omega)
        omega
      rw [ih (n / 10) (Nat.digitChar (n % 10) :: l) hlt]
      simp [List.foldl, digitStep, digitVal_digitChar (Nat.mod_lt n (by omega))]
      rw [Nat.add_comm]
      exact congrArg (fun z => List.foldl digitStep z l) (Nat.mod_add_div n 10)

theorem foldl_digitStep_toDigits (n : Nat) :
    List.foldl digitStep 0 (Nat.toDigits 10 n) = n := by
  have := foldl_digitStep_toDigitsCore (n + 1) n [] (Nat.lt_succ_self n)
  simpa [Nat.toDigits] using this

theorem toDigits_injective {m n : Nat}
    (h : Nat.toDigits 10 m = Nat.toDigits 10 n) : m = n := by
  have hm := foldl_digitStep_toDigits m
  have hn := foldl_digitStep_toDigits n
  rw [h] at hm
  omega

theorem repr_data (n : Nat) : (Nat.repr n).data = Nat.toDigits 10 n := rfl

theorem repr_injective {m n : Nat} (h : Nat.repr m = Nat.repr n) : m = n :=
  toDigits_injective (by
    have := congrArg String.data h
    simpa [repr_data] using this)

/-!
### Session filenames (camera.py lines 149-167, 235-257, 267-270, 388-394)
-/

/--
Model of get_base_filename_for_images (lines 149-167).  The argument now
stands for str(datetime.datetime.now()); the code keeps the part before
the first dot and makes it filesystem safe.
-/
def get_base_filename_for_images (cfg : Config) (now : String) : String :=
  let base_filename := (((now.splitOn ".").headD "").replace " " "_").replace ":" "-"
  cfg.SAVE_RAW_IMAGES_FOLDER ++ "/" ++ base_filename

/--
Filename produced by taking_photo (line 241):
the session base, underscore, photo number, "of", total count, ".jpg".
(The second source argument is named filename_base here.)
-/
def taking_photo_filename (cfg : Config) (photo_number : Nat)
    (filename_base : String) : String :=
  filename_base ++ "_" ++ Nat.repr photo_number ++ "of" ++
    Nat.repr cfg.TOTAL_PICS ++ ".jpg"

/--
Filenames accumulated by the capture loop of main (lines 388-394):
photo_number runs over range(1, TOTAL_PICS + 1).
-/
def capture_loop_filenames (cfg : Config) (filename_base : String) :
    List String :=
  (List.range cfg.TOTAL_PICS).map
    (fun k => taking_photo_filename cfg (k + 1) filename_base)

/--
Montage output file of playback_screen (lines 267-270): the external
montage command writes to filename_base ++ ".jpg".
-/
def montage_filename (filename_base : String) : String :=
  filename_base ++ ".jpg"

theorem taking_photo_filename_injective (cfg : Config) (base : String)
    {i j : Nat} (h : taking_photo_filename cfg i base =
      taking_photo_filename cfg j base) : i = j := by
  apply repr_injective
  have hd := congrArg String.data h
  simp only [taking_photo_filename, String.data_append, List.append_assoc] at hd
  have h1 := List.append_cancel_left hd
  have h2 := List.append_cancel_left h1
  have h3 := List.append_cancel_right h2
  ext1
  exact h3

/-- C1: a session with photo count N produces raw files named
base_iofN.jpg for i in 1..N — exactly N of them, pairwise distinct —
plus the single montage file base.jpg, which differs from every raw
file. -/
theorem capture_session_files (cfg : Config) (base : String)
    (_hN : 1 ≤ cfg.TOTAL_PICS) :
    (capture_loop_filenames cfg base).length = cfg.TOTAL_PICS ∧
    (capture_loop_filenames cfg base).Nodup ∧
    (∀ f, f ∈ capture_loop_filenames cfg base ↔
      ∃ i, 1 ≤ i ∧ i ≤ cfg.TOTAL_PICS ∧
        f = base ++ "_" ++ Nat.repr i ++ "of" ++
          Nat.repr cfg.TOTAL_PICS ++ ".jpg") ∧
    montage_filename base = base ++ ".jpg" ∧
    montage_filename base ∉ capture_loop_filenames cfg base := by
  refine ⟨?_, ?_, ?_, rfl, ?_⟩
  · simp [capture_loop_filenames]
  · refine List.Nodup.map ?_ (List.nodup_range _)
    intro a b hab
    have := taking_photo_filename_injective cfg base hab
    omega
  · intro f
    simp only [capture_loop_filenames, List.mem_map, List.mem_range]
    constructor
    · rintro ⟨k, hk, rfl⟩
      exact ⟨k + 1, by omega, by omega, rfl⟩
    · rintro ⟨i, h1, h2, rfl⟩
      exact ⟨i - 1, by omega, by
        have : i - 1 + 1 = i := by omega
        rw [this]
        rfl⟩
  · intro hmem
    simp only [capture_loop_filenames, List.mem_map, List.mem_range] at hmem
    obtain ⟨k, _, hk⟩ := hmem
    have hd := congrArg String.data hk.symm
    simp only [taking_photo_filename, montage_filename,
      String.data_append, List.append_assoc] at hd
    have h1 := List.append_cancel_left hd
    simp [List.singleton_append] at h1

/-- Concrete configuration used to instantiate witnesses. -/
def cfgW : Config where
  TOTAL_PICS := 2
  PREP_DELAY := 1
  COUNTDOWN := 3
  PHOTO_W := 8
  PHOTO_H := 6
  SCREEN_W := 100
  SCREEN_H := 60
  DEBOUNCE_TIME := 1
  TESTMODE_AUTOPRESS_BUTTON := false
  PROPOSE_GPU_EFFECTS := false
  SAVE_RAW_IMAGES_FOLDER := "photos"
  COPY_IMAGES_TO := ["backup"]

theorem capture_session_files_witness :
    1 ≤ cfgW.TOTAL_PICS ∧
    ((capture_loop_filenames cfgW "photos/b").length = cfgW.TOTAL_PICS ∧
    (capture_loop_filenames cfgW "photos/b").Nodup ∧
    (∀ f, f ∈ capture_loop_filenames cfgW "photos/b" ↔
      ∃ i, 1 ≤ i ∧ i ≤ cfgW.TOTAL_PICS ∧
        f = "photos/b" ++ "_" ++ Nat.repr i ++ "of" ++
          Nat.repr cfgW.TOTAL_PICS ++ ".jpg") ∧
    montage_filename "photos/b" = "photos/b" ++ ".jpg" ∧
    montage_filename "photos/b" ∉ capture_loop_filenames cfgW "photos/b") :=
  ⟨by decide, capture_session_files cfgW "photos/b" (by decide)⟩

/-!
### Input polling and the WAITING tick (camera.py lines 325-358)
-/

/--
Debounced poll of one pin (lines 329-332 and 334-337): an edge latch
was seen or not; if it was, the code sleeps DEBOUNCE_TIME and reads the
pin; the press registers only when the level read after the sleep is 0
(buttons are active low).
-/
def poll_button (event_detected : Bool) (level_after_debounce : Nat) : Bool :=
  event_detected && (level_after_debounce == 0)

/-- Events emitted by one debounced poll of a pin. -/
inductive PollEv where
  | sleep_for (t : Nat)
  | sample (t : Nat)
  deriving Repr, DecidableEq

/--
Timed model of one debounced poll (lines 329-332): level gives the
electrical level of the pin at each instant and t0 is the instant the
poll starts.  If the latch is set, the code sleeps DEBOUNCE_TIME and
samples the pin at t0 + DEBOUNCE_TIME; it reports a press only when
that sample reads 0.
-/
def poll_button_timed (cfg : Config) (latch : Bool) (level : Nat → Nat)
    (t0 : Nat) : List PollEv × Bool :=
  if latch then
    ([PollEv.sleep_for cfg.DEBOUNCE_TIME,
      PollEv.sample (t0 + cfg.DEBOUNCE_TIME)],
      level (t0 + cfg.DEBOUNCE_TIME) == 0)
  else ([], false)

/-- C5: with the edge latch set, the poll sleeps the debounce interval
and samples the pin at t0 + DEBOUNCE_TIME; a reported press implies the
sampled level was still low; and a level that has returned to high
(inactive) by the end of the debounce interval never registers as a
press. -/
theorem debounce_rejects_released (cfg : Config) (level : Nat → Nat)
    (t0 : Nat) (latch : Bool) :
    (latch = true →
      (poll_button_timed cfg latch level t0).1 =
        [PollEv.sleep_for cfg.DEBOUNCE_TIME,
         PollEv.sample (t0 + cfg.DEBOUNCE_TIME)]) ∧
    ((poll_button_timed cfg latch level t0).2 = true →
      latch = true ∧ level (t0 + cfg.DEBOUNCE_TIME) = 0) ∧
    (∀ t1, t1 ≤ t0 + cfg.DEBOUNCE_TIME → (∀ t, t1 ≤ t → level t = 1) →
      (poll_button_timed cfg latch level t0).2 = false) := by
  refine ⟨fun hl => by simp [poll_button_timed, hl], ?_, ?_⟩
  · intro hp
    rcases hlatch : latch with _ | _
    · rw [hlatch] at hp; simp [poll_button_timed] at hp
    · rw [hlatch] at hp
      simp only [poll_button_timed, if_true] at hp
      exact ⟨rfl, by simpa using hp⟩
  · intro t1 ht1 hhigh
    have hlev : level (t0 + cfg.DEBOUNCE_TIME) = 1 := hhigh _ ht1
    rcases latch with _ | _ <;> simp [poll_button_timed, hlev]

theorem debounce_rejects_released_witness :
    (poll_button_timed cfgW true (fun _ => 1) 0).1 =
      [PollEv.sleep_for cfgW.DEBOUNCE_TIME,
       PollEv.sample (0 + cfgW.DEBOUNCE_TIME)] ∧
    (poll_button_timed cfgW true (fun _ => 1) 0).2 = false := by
  have h := debounce_rejects_released cfgW (fun _ => 1) 0 true
  exact ⟨h.1 rfl, h.2.2 0 (by omega) (fun t _ => rfl)⟩

/-- Pin observations available to one WAITING tick: whether each edge
latch was set, and the level each debounce sample would read. -/
structure TickInput where
  camera_event : Bool
  camera_level : Nat
  exit_event : Bool
  exit_level : Nat
  deriving Repr, DecidableEq

/-- Result of one WAITING tick of the main loop. -/
inductive TickResult where
  | exit_booth
  | start_session
  | keep_waiting (i : Nat) (alpha_change : Option Nat)
  deriving Repr, DecidableEq

/-- Blink bookkeeping of the idle branch (lines 348-354): increment i;
at blink_speed = 10 set the secondary overlay alpha to 255, at 20 set
it to 0 and reset i. -/
def blink_update (i : Nat) : Nat × Option Nat :=
  let i' := i + 1
  if i' == 10 then (i', some 255)
  else if i' == 2 * 10 then (0, some 0)
  else (i', none)

/--
One tick of the WAITING loop of main (lines 325-358): poll the camera
button, poll the exit button, return from main when the exit press
registered, apply the test-mode auto press, and either leave the loop
to start a session or keep waiting (updating the blink counter).
-/
def waiting_tick (cfg : Config) (i : Nat) (inp : TickInput) : TickResult :=
  let photo_button_is_pressed :=
    poll_button inp.camera_event inp.camera_level
  let exit_button_is_pressed :=
    poll_button inp.exit_event inp.exit_level
  if exit_button_is_pressed then TickResult.exit_booth
  else
    let pressed := photo_button_is_pressed || cfg.TESTMODE_AUTOPRESS_BUTTON
    if pressed then TickResult.start_session
    else
      let b := blink_update i
      TickResult.keep_waiting b.1 b.2

/-- C2: in a WAITING tick where both the exit press and the capture
press register (both latches set and both levels still low after their
debounce samples), the tick returns from main at once; it does not
start a session and does not keep waiting. -/
theorem exit_press_wins (cfg : Config) (i : Nat) (inp : TickInput)
    (_hce : inp.camera_event = true) (_hcl : inp.camera_level = 0)
    (hee : inp.exit_event = true) (hel : inp.exit_level = 0) :
    waiting_tick cfg i inp = TickResult.exit_booth := by
  simp [waiting_tick, poll_button, hee, hel]

theorem exit_press_wins_witness :
    waiting_tick cfgW 0 ⟨true, 0, true, 0⟩ = TickResult.exit_booth :=
  exit_press_wins cfgW 0 ⟨true, 0, true, 0⟩ rfl rfl rfl rfl

/-!
### Overlay padding (camera.py lines 177-221)
-/

/--
Least multiple of b at least w, as the source computes it for the
overlay buffer: (w + (b - 1)) / b * b with machine integer division
(lines 203-206 use b = 32 for the width and b = 16 for the height).
-/
theorem nat_ceil_div (w b : Nat) (hb : 0 < b) :
    ⌈(w : ℚ) / (b : ℚ)⌉ = ((w + (b - 1)) / b : Nat) := by
  have hdm := Nat.div_add_mod (w + (b - 1)) b
  have hmod := Nat.mod_lt (w + (b - 1)) hb
  set q := (w + (b - 1)) / b with hq
  have h1 : w ≤ b * q := by omega
  have h2 : b * q < w + b := by omega
  have hbQ : (0 : ℚ) < (b : ℚ) := by exact_mod_cast hb
  rw [Int.ceil_eq_iff]
  constructor
  · rw [lt_div_iff₀ hbQ]
    have h2Q : (b : ℚ) * (q : ℚ) < (w : ℚ) + (b : ℚ) := by exact_mod_cast h2
    push_cast
    linarith
  · rw [div_le_iff₀ hbQ]
    have h1Q : (w : ℚ) ≤ (b : ℚ) * (q : ℚ) := by exact_mod_cast h1
    push_cast
    linarith

/--
Sizes computed by overlay_image (lines 184-219) for an input image of
size (w, h): an image wider than the screen is first downscaled (the
floating-point computation of the scaled height on lines 189-190 is
abstracted by the argument hsize_scaled); the padded buffer is then
created with width rounded up to a multiple of 32 and height to a
multiple of 16 (lines 203-206), while add_overlay receives the
unpadded image size (line 219).  Returns (padded buffer size, size
passed to add_overlay).
-/
def overlay_image_sizes (cfg : Config) (w h : Nat) (hsize_scaled : Nat) :
    (Nat × Nat) × (Nat × Nat) :=
  let img_size : Nat × Nat :=
    if cfg.SCREEN_W < w then (cfg.SCREEN_W, hsize_scaled) else (w, h)
  (((img_size.1 + 31) / 32 * 32, (img_size.2 + 15) / 16 * 16), img_size)

/-- C6: for an input image with w ≤ SCREEN_W, the padded buffer measures
ceil(w/32)*32 by ceil(h/16)*16 — the integer computation
(w+31)/32*32 by (h+15)/16*16 — while the size reported to the
compositor stays (w, h). -/
theorem overlay_padding (cfg : Config) (w h hs : Nat)
    (hw : w ≤ cfg.SCREEN_W) :
    ((overlay_image_sizes cfg w h hs).1.1 : ℤ) = ⌈(w : ℚ) / 32⌉ * 32 ∧
    ((overlay_image_sizes cfg w h hs).1.2 : ℤ) = ⌈(h : ℚ) / 16⌉ * 16 ∧
    (overlay_image_sizes cfg w h hs).1.1 = (w + 31) / 32 * 32 ∧
    (overlay_image_sizes cfg w h hs).1.2 = (h + 15) / 16 * 16 ∧
    (overlay_image_sizes cfg w h hs).2 = (w, h) := by
  have hnot : ¬ cfg.SCREEN_W < w := by omega
  have e32 := nat_ceil_div w 32 (by omega)
  have e16 := nat_ceil_div h 16 (by omega)
  norm_num at e32 e16
  refine ⟨?_, ?_, ?_, ?_, ?_⟩ <;>
    simp [overlay_image_sizes, hnot, e32, e16]

theorem overlay_padding_witness :
    ((overlay_image_sizes cfgW 30 20 0).1.1 : ℤ) = ⌈(30 : ℚ) / 32⌉ * 32 ∧
    ((overlay_image_sizes cfgW 30 20 0).1.2 : ℤ) = ⌈(20 : ℚ) / 16⌉ * 16 ∧
    (overlay_image_sizes cfgW 30 20 0).1.1 = (30 + 31) / 32 * 32 ∧
    (overlay_image_sizes cfgW 30 20 0).1.2 = (20 + 15) / 16 * 16 ∧
    (overlay_image_sizes cfgW 30 20 0).2 = (30, 20) := by
  have h := overlay_padding cfgW 30 20 0 (by decide)
  push_cast at h ⊢
  exact h

/-!
### Playback list mutation and archiving (camera.py lines 259-271, 400-404)
-/

/--
Effect of playback_screen on main's photo_filenames list (lines
270-271): playback_screen appends the montage path to the very list
object main passed in, so after playback main's photo_filenames holds
the raw files followed by the montage.
-/
def playback_photo_filenames (filename_base : String)
    (photo_filenames : List String) : List String :=
  photo_filenames ++ [montage_filename filename_base]

/--
Copy pairs (src, dest) issued by the archive loop of main (lines
401-404) in program order: for each dest in COPY_IMAGES_TO, for each
src in photo_filenames, copy2(src, dest).  copy2 into a folder keeps
the source's filename.
-/
def archive_copy_pairs (cfg : Config) (photo_filenames : List String) :
    List (String × String) :=
  cfg.COPY_IMAGES_TO.flatMap
    (fun dest => photo_filenames.map (fun src => (src, dest)))

/-- Copy pairs of a whole session: the capture loop's files as mutated
by playback_screen, archived by main. -/
def session_archive_copy_pairs (cfg : Config) (filename_base : String) :
    List (String × String) :=
  archive_copy_pairs cfg
    (playback_photo_filenames filename_base
      (capture_loop_filenames cfg filename_base))

/-- C3 counterexample: with one photo and one archive destination, the
montage file itself is among the files copied to the destination,
because playback_screen appended it to main's photo_filenames list. -/
theorem archive_includes_montage_cex :
    (montage_filename "photos/b", "backup") ∈
      session_archive_copy_pairs cfgW "photos/b" := by decide

/-- C3 amended: each archive destination receives every raw captured
file and additionally the montage file, each copy keeping the source
path; nothing else is copied. -/
theorem archive_copies_raw_and_montage (cfg : Config) (base : String)
    (dest : String) (hdest : dest ∈ cfg.COPY_IMAGES_TO) (f : String) :
    (f, dest) ∈ session_archive_copy_pairs cfg base ↔
      (f ∈ capture_loop_filenames cfg base ∨ f = montage_filename base) := by
  simp only [session_archive_copy_pairs, archive_copy_pairs,
    playback_photo_filenames, List.mem_flatMap, List.mem_map,
    List.mem_append, List.mem_singleton, Prod.mk.injEq]
  constructor
  · rintro ⟨d, _, s, hs, rfl, rfl⟩
    rcases hs with hs | hs
    · exact Or.inl hs
    · exact Or.inr hs
  · rintro (hf | hf)
    · exact ⟨dest, hdest, f, Or.inl hf, rfl, rfl⟩
    · exact ⟨dest, hdest, f, Or.inr hf, rfl, rfl⟩

theorem archive_copies_raw_and_montage_witness :
    ((montage_filename "photos/b", "backup") ∈
        session_archive_copy_pairs cfgW "photos/b" ↔
      (montage_filename "photos/b" ∈ capture_loop_filenames cfgW "photos/b" ∨
        montage_filename "photos/b" = montage_filename "photos/b")) :=
  archive_copies_raw_and_montage cfgW "photos/b" "backup" (by decide)
    (montage_filename "photos/b")

/--
Archive loop of main (lines 401-404) with a fallible copy, inner loop:
copy_fails src dest says whether copy2(src, dest) raises.  No copy is
guarded by try/except, so the first failing copy propagates and aborts
the loop.  Returns the pairs attempted in program order (including the
failing one) and whether the loop finished without an exception.
-/
def copy2_loop_inner (dest : String) (files : List String)
    (copy_fails : String → String → Bool) :
    List (String × String) × Bool :=
  match files with
  | [] => ([], true)
  | src :: rest =>
    if copy_fails src dest then ([(src, dest)], false)
    else
      let r := copy2_loop_inner dest rest copy_fails
      ((src, dest) :: r.1, r.2)

/-- Archive loop of main (lines 401-404) with a fallible copy, outer
loop over the destinations; an exception from the inner loop propagates
out of the outer loop as well. -/
def copy2_loop (dests files : List String)
    (copy_fails : String → String → Bool) :
    List (String × String) × Bool :=
  match dests with
  | [] => ([], true)
  | dest :: rest =>
    let r := copy2_loop_inner dest files copy_fails
    if r.2 then
      let r2 := copy2_loop rest files copy_fails
      (r.1 ++ r2.1, r2.2)
    else r

/-- C4: evaluation at the failing input.  With destinations d1, d2 and
files f1, f2, where copying f1 to d1 raises, the loop attempts only
(f1, d1) and stops: the remaining pairs (f2, d1), (f1, d2), (f2, d2)
are never attempted, contrary to the stated requirement that one
failure must not prevent the remaining copy attempts. -/
theorem archive_aborts_on_first_failure :
    copy2_loop ["d1", "d2"] ["f1", "f2"]
        (fun src dest => src == "f1" && dest == "d1") =
      ([("f1", "d1")], false) ∧
    ("f2", "d1") ∉ (copy2_loop ["d1", "d2"] ["f1", "f2"]
        (fun src dest => src == "f1" && dest == "d1")).1 ∧
    ("f1", "d2") ∉ (copy2_loop ["d1", "d2"] ["f1", "f2"]
        (fun src dest => src == "f1" && dest == "d1")).1 := by
  refine ⟨rfl, ?_, ?_⟩ <;> decide

/-!
### Folder health check and boot (camera.py lines 126-140, 292-325)
-/

/--
Loop of health_test_required_folders (lines 131-140): walk the folder
list keeping the folders already seen; a folder seen before only
produces a printed error message — nothing is raised and nothing stops.
(Folder creation, lines 138-140, has no bearing on the claims and is
not modelled.)  Returns (folders_checked, error messages) in program
order.
-/
def health_folders_loop : List String → List String →
    List String × List String
  | [], folders_checked => (folders_checked, [])
  | folder :: rest, folders_checked =>
    if folder ∈ folders_checked then
      let r := health_folders_loop rest folders_checked
      (r.1, ("ERROR: Cannot use same folder path (" ++ folder ++
        ") twice. Refer config file.") :: r.2)
    else
      health_folders_loop rest (folders_checked ++ [folder])

/-- Error messages printed by health_test_required_folders (lines
126-140): the folder list is SAVE_RAW_IMAGES_FOLDER followed by
COPY_IMAGES_TO. -/
def health_test_required_folders (cfg : Config) : List String :=
  (health_folders_loop
    (cfg.SAVE_RAW_IMAGES_FOLDER :: cfg.COPY_IMAGES_TO) []).2

/-- Events of the opening of main, before the waiting loop. -/
inductive BootEv where
  | health_error (msg : String)
  | show_overlay (file : String) (layer : Nat)
  | start_preview
  | enter_waiting_loop
  deriving Repr, DecidableEq

/--
Opening of main (lines 292-325): run health_test_required_folders —
whose only reaction to a duplicate folder is the printed error —, show
the two intro overlays, start the camera preview and enter the waiting
loop.  main never inspects any outcome of the health check, so the
trace always continues past it.  (The REAL_PATH directory that the
source prepends to the asset paths is omitted.)
-/
def main_boot_trace (cfg : Config) : List BootEv :=
  ((health_test_required_folders cfg).map BootEv.health_error) ++
    [BootEv.show_overlay "/assets/intro_1.png" 3,
     BootEv.show_overlay "/assets/intro_2.png" 4,
     BootEv.start_preview,
     BootEv.enter_waiting_loop]

/-- Configuration whose archive destination collides with the raw-image
folder. -/
def cfgDup : Config :=
  { cfgW with SAVE_RAW_IMAGES_FOLDER := "photos", COPY_IMAGES_TO := ["photos"] }

/-- C9 counterexample: a configuration in which an archive destination
equals the raw-image folder is reported (the health check produces an
error message) yet is NOT rejected: the boot sequence still reaches the
waiting loop, so the system runs under the violating configuration. -/
theorem duplicate_folders_still_run_cex :
    health_test_required_folders cfgDup ≠ [] ∧
    BootEv.enter_waiting_loop ∈ main_boot_trace cfgDup := by
  refine ⟨by decide, ?_⟩
  simp [main_boot_trace]

theorem health_folders_loop_errors_nil (l : List String) :
    ∀ checked : List String,
      ((health_folders_loop l checked).2 = [] ↔
        l.Nodup ∧ ∀ x ∈ l, x ∉ checked) := by
  induction l with
  | nil => intro checked; simp [health_folders_loop]
  | cons folder rest ih =>
    intro checked
    by_cases hmem : folder ∈ checked
    · simp only [health_folders_loop, if_pos hmem]
      constructor
      · intro h; cases h
      · rintro ⟨-, hall⟩
        exact absurd hmem (hall folder (List.mem_cons_self folder rest))
    · simp only [health_folders_loop, if_neg hmem]
      rw [ih (checked ++ [folder])]
      constructor
      · rintro ⟨hnd, hall⟩
        refine ⟨List.nodup_cons.mpr ⟨?_, hnd⟩, ?_⟩
        · intro hf
          exact (hall folder hf) (List.mem_append_right checked (by simp))
        · intro x hx
          rcases List.mem_cons.mp hx with rfl | hx
          · exact hmem
          · exact fun hc => hall x hx (List.mem_append_left [folder] hc)
      · rintro ⟨hnd, hall⟩
        obtain ⟨hfr, hnd⟩ := List.nodup_cons.mp hnd
        refine ⟨hnd, ?_⟩
        intro x hx
        simp only [List.mem_append, List.mem_singleton]
        rintro (hc | rfl)
        · exact absurd hc (hall x (List.mem_cons_of_mem folder hx))
        · exact hfr hx

/-- C9 amended: the health check detects a duplicate precisely when the
raw-image folder and the archive destinations are not pairwise
distinct, and it reports it with an error message — but the system is
never rejected: booting always proceeds to the waiting loop. -/
theorem duplicate_folders_reported_not_rejected (cfg : Config) :
    (health_test_required_folders cfg = [] ↔
      (cfg.SAVE_RAW_IMAGES_FOLDER :: cfg.COPY_IMAGES_TO).Nodup) ∧
    BootEv.enter_waiting_loop ∈ main_boot_trace cfg := by
  constructor
  · rw [health_test_required_folders, health_folders_loop_errors_nil]
    simp
  · simp [main_boot_trace]

/-!
### Overlay lifecycle and the playback slideshow (camera.py lines 169-174, 259-290)
-/

/-- Overlay and timing events of the playback phase. -/
inductive Ev where
  | add (handle : Int) (file : String) (layer : Nat)
  | remove (handle : Int)
  | sleep_s (seconds : Nat)
  deriving Repr, DecidableEq

/-- remove_overlay (lines 169-174): CAMERA.remove_overlay is called
exactly when the id differs from the sentinel -1; the value 0 is a
handle like any other and is removed. -/
def remove_overlay_calls (overlay_id : Int) : List Ev :=
  if overlay_id ≠ -1 then [Ev.remove overlay_id] else []

/-- The guard of line 276: Python's `if prev_overlay:` on an integer
handle is a falsy-value test — it passes exactly when the handle is
nonzero. -/
def python_truthy (handle : Int) : Bool := handle != 0

/--
Slideshow loop of playback_screen (lines 273-282): the list of events
it emits, paired with the final prev_overlay value.  alloc k stands
for the handle returned by the k-th overlay_image call of the playback
phase (call 0 is the processing overlay) and k counts the calls made
so far.  Each iteration adds the next overlay at layer 6, removes the
previous one only if it passes the truthiness guard, and sleeps 6
seconds on the montage, 2 seconds otherwise.
-/
def playback_slideshow (montage : String) (alloc : Nat → Int) :
    List String → Int → Nat → List Ev × Int
  | [], prev_overlay, _ => ([], prev_overlay)
  | filename :: rest, prev_overlay, k =>
    let this_overlay := alloc k
    let r := playback_slideshow montage alloc rest this_overlay (k + 1)
    (Ev.add this_overlay filename 6 ::
      ((if python_truthy prev_overlay then remove_overlay_calls prev_overlay
        else []) ++
        (Ev.sleep_s (if filename == montage then 6 else 2) :: r.1)),
      r.2)

/--
playback_screen (lines 259-290) as an event trace: add the processing
overlay at layer 4, run the montage command and append the montage to
the photo list (montage_filename, playback_photo_filenames), play the
slideshow, add the finished overlay at layer 5, and remove the overlay
left over from the slideshow with an unguarded remove_overlay call
(line 289).  (REAL_PATH is omitted from the asset paths.)
-/
def playback_screen_trace (filename_base : String)
    (photo_filenames : List String) (alloc : Nat → Int) : List Ev :=
  let montage := montage_filename filename_base
  let seq := playback_photo_filenames filename_base photo_filenames
  let r := playback_slideshow montage alloc seq (alloc 0) 1
  Ev.add (alloc 0) "/assets/processing.png" 4 ::
    (r.1 ++
      (Ev.add (alloc (seq.length + 1)) "/assets/all_done_delayed_upload.png" 5 ::
        remove_overlay_calls r.2))

/-- C7 counterexample: in a playback where the processing overlay call
returns handle 0, the overlay with handle 0 is shown but never removed:
the `if prev_overlay:` guard of line 276 is a falsy-value test, so this
caller does not treat handle 0 as a removable handle. -/
theorem playback_skips_zero_handle_cex :
    Ev.add 0 "/assets/processing.png" 4 ∈
      playback_screen_trace "b" ["p"]
        (fun k => if k == 0 then 0 else (k : Int)) ∧
    Ev.remove 0 ∉
      playback_screen_trace "b" ["p"]
        (fun k => if k == 0 then 0 else (k : Int)) := by
  decide

/-- C7 amended: remove_overlay on the sentinel -1 is a no-op, and
remove_overlay itself treats every non-sentinel handle — 0 included —
as removable; but the slideshow loop of playback_screen guards its
removal with a Python truthiness test, so a previous overlay whose
handle is 0 is silently skipped there instead of being removed. -/
theorem remove_overlay_sentinel_and_falsy_guard :
    remove_overlay_calls (-1) = [] ∧
    (∀ h : Int, h ≠ -1 → remove_overlay_calls h = [Ev.remove h]) ∧
    (∀ (m : String) (a : Nat → Int) (f : String) (rest : List String)
        (k : Nat),
      (playback_slideshow m a (f :: rest) 0 k).1 =
        Ev.add (a k) f 6 ::
          Ev.sleep_s (if f == m then 6 else 2) ::
            (playback_slideshow m a rest (a k) (k + 1)).1) := by
  refine ⟨by simp [remove_overlay_calls], ?_, ?_⟩
  · intro h hne
    simp [remove_overlay_calls, hne]
  · intro m a f rest k
    simp [playback_slideshow, python_truthy]

theorem remove_overlay_sentinel_and_falsy_guard_witness :
    remove_overlay_calls 0 = [Ev.remove 0] ∧
    (playback_slideshow "b.jpg" (fun k => (k : Int)) ["p"] 0 1).1 =
      Ev.add 1 "p" 6 ::
        Ev.sleep_s (if "p" == "b.jpg" then 6 else 2) ::
          (playback_slideshow "b.jpg" (fun k => (k : Int)) [] 1 2).1 := by
  have h := remove_overlay_sentinel_and_falsy_guard
  refine ⟨h.2.1 0 (by decide), ?_⟩
  have h3 := h.2.2 "b.jpg" (fun k => (k : Int)) "p" [] 1
  simpa using h3

/-- Files of the slideshow adds (layer 6) of a trace, in order. -/
def slideshow_files (tr : List Ev) : List String :=
  tr.filterMap (fun e =>
    match e with
    | Ev.add _ f lay => if lay == 6 then some f else none
    | _ => none)

/-- Sleep durations of a trace, in order. -/
def trace_sleeps (tr : List Ev) : List Nat :=
  tr.filterMap (fun e =>
    match e with
    | Ev.sleep_s s => some s
    | _ => none)

theorem guard_removes_pos (p : Int) (hp : 0 < p) :
    (if python_truthy p then remove_overlay_calls p else []) =
      [Ev.remove p] := by
  have h0 : (p != 0) = true := by simp [bne_iff_ne]; omega
  have h1 : p ≠ -1 := by omega
  simp [python_truthy, remove_overlay_calls, h0, h1]

theorem slideshow_files_append (l1 l2 : List Ev) :
    slideshow_files (l1 ++ l2) =
      slideshow_files l1 ++ slideshow_files l2 :=
  List.filterMap_append l1 l2 _

theorem trace_sleeps_append (l1 l2 : List Ev) :
    trace_sleeps (l1 ++ l2) = trace_sleeps l1 ++ trace_sleeps l2 :=
  List.filterMap_append l1 l2 _

theorem slideshow_files_guard (prev : Int) :
    slideshow_files
      (if python_truthy prev then remove_overlay_calls prev else []) = [] := by
  unfold slideshow_files remove_overlay_calls
  split_ifs <;> rfl

theorem trace_sleeps_guard (prev : Int) :
    trace_sleeps
      (if python_truthy prev then remove_overlay_calls prev else []) = [] := by
  unfold trace_sleeps remove_overlay_calls
  split_ifs <;> rfl

theorem slideshow_files_playback (m : String) (a : Nat → Int) :
    ∀ (l : List String) (prev : Int) (k : Nat),
      slideshow_files (playback_slideshow m a l prev k).1 = l := by
  intro l
  induction l with
  | nil => intro prev k; rfl
  | cons f rest ih =>
    intro prev k
    rw [show slideshow_files (playback_slideshow m a (f :: rest) prev k).1 =
      f :: slideshow_files
        ((if python_truthy prev then remove_overlay_calls prev else []) ++
          (Ev.sleep_s (if f == m then 6 else 2) ::
            (playback_slideshow m a rest (a k) (k + 1)).1)) from rfl,
      slideshow_files_append, slideshow_files_guard]
    simp only [List.nil_append]
    rw [show slideshow_files (Ev.sleep_s (if f == m then 6 else 2) ::
        (playback_slideshow m a rest (a k) (k + 1)).1) =
      slideshow_files (playback_slideshow m a rest (a k) (k + 1)).1 from rfl,
      ih (a k) (k + 1)]

theorem trace_sleeps_playback (m : String) (a : Nat → Int) :
    ∀ (l : List String) (prev : Int) (k : Nat),
      trace_sleeps (playback_slideshow m a l prev k).1 =
        l.map (fun f => if f == m then 6 else 2) := by
  intro l
  induction l with
  | nil => intro prev k; rfl
  | cons f rest ih =>
    intro prev k
    rw [show trace_sleeps (playback_slideshow m a (f :: rest) prev k).1 =
      trace_sleeps
        ((if python_truthy prev then remove_overlay_calls prev else []) ++
          (Ev.sleep_s (if f == m then 6 else 2) ::
            (playback_slideshow m a rest (a k) (k + 1)).1)) from rfl,
      trace_sleeps_append, trace_sleeps_guard]
    simp only [List.nil_append, List.map_cons]
    exact congrArg (List.cons _) (ih (a k) (k + 1))

theorem remove_overlay_calls_pos (p : Int) (hp : 0 < p) :
    remove_overlay_calls p = [Ev.remove p] := by
  have h1 : p ≠ -1 := by omega
  simp [remove_overlay_calls, h1]

theorem slideshow_files_removes (p : Int) :
    slideshow_files (remove_overlay_calls p) = [] := by
  unfold slideshow_files remove_overlay_calls
  split_ifs <;> rfl

theorem trace_sleeps_removes (p : Int) :
    trace_sleeps (remove_overlay_calls p) = [] := by
  unfold trace_sleeps remove_overlay_calls
  split_ifs <;> rfl

theorem playback_final_prev (m : String) (a : Nat → Int) :
    ∀ (l : List String) (kp : Nat),
      (playback_slideshow m a l (a kp) (kp + 1)).2 = a (kp + l.length) := by
  intro l
  induction l with
  | nil => intro kp; simp [playback_slideshow]
  | cons f rest ih =>
    intro kp
    simp only [playback_slideshow]
    have := ih (kp + 1)
    simp only [List.length_cons]
    rw [this]
    congr 1
    omega

/--
Every removal in the slideshow (followed by the closing finished-add
and final remove of playback_screen) happens strictly after the add of
the overlay allocated next: whenever the event list splits as
A ++ remove h :: B, the handle h is alloc j for some j and the add of
alloc (j + 1) already occurs in A.
-/
theorem playback_remove_after_add (m fin : String) (a : Nat → Int)
    (hpos : ∀ k, 0 < a k) :
    ∀ (l : List String) (kp : Nat) (A B : List Ev) (h : Int),
      (playback_slideshow m a l (a kp) (kp + 1)).1 ++
          (Ev.add (a (kp + l.length + 1)) fin 5 ::
            remove_overlay_calls (a (kp + l.length))) =
        A ++ Ev.remove h :: B →
      ∃ j f lay, h = a j ∧ Ev.add (a (j + 1)) f lay ∈ A := by
  intro l
  induction l with
  | nil =>
    intro kp A B h hEq
    have hL : (playback_slideshow m a [] (a kp) (kp + 1)).1 ++
        (Ev.add (a (kp + ([] : List String).length + 1)) fin 5 ::
          remove_overlay_calls (a (kp + ([] : List String).length))) =
        [Ev.add (a (kp + 1)) fin 5, Ev.remove (a kp)] := by
      simp [playback_slideshow, remove_overlay_calls_pos _ (hpos kp)]
    rw [hL] at hEq
    cases A with
    | nil =>
      rw [List.nil_append] at hEq
      injection hEq with h1 _
      exact Ev.noConfusion h1
    | cons e1 A1 =>
      rw [List.cons_append] at hEq
      injection hEq with he1 hEq1
      cases A1 with
      | nil =>
        rw [List.nil_append] at hEq1
        injection hEq1 with he2 _
        injection he2 with hh
        refine ⟨kp, fin, 5, hh.symm, ?_⟩
        subst he1
        exact List.mem_cons_self _ _
      | cons e2 A2 =>
        rw [List.cons_append] at hEq1
        injection hEq1 with _ hEq2
        exact absurd hEq2 (by simp)
  | cons f rest ih =>
    intro kp A B h hEq
    have hidx : kp + (f :: rest).length = kp + 1 + rest.length := by
      simp [List.length_cons]
      omega
    have hL : (playback_slideshow m a (f :: rest) (a kp) (kp + 1)).1 ++
        (Ev.add (a (kp + (f :: rest).length + 1)) fin 5 ::
          remove_overlay_calls (a (kp + (f :: rest).length))) =
        Ev.add (a (kp + 1)) f 6 :: Ev.remove (a kp) ::
          Ev.sleep_s (if f == m then 6 else 2) ::
          ((playback_slideshow m a rest (a (kp + 1)) (kp + 1 + 1)).1 ++
            (Ev.add (a (kp + 1 + rest.length + 1)) fin 5 ::
              remove_overlay_calls (a (kp + 1 + rest.length)))) := by
      rw [show (playback_slideshow m a (f :: rest) (a kp) (kp + 1)).1 =
        Ev.add (a (kp + 1)) f 6 ::
          ((if python_truthy (a kp) then remove_overlay_calls (a kp)
            else []) ++
            (Ev.sleep_s (if f == m then 6 else 2) ::
              (playback_slideshow m a rest (a (kp + 1)) (kp + 1 + 1)).1))
        from rfl,
        guard_removes_pos _ (hpos kp), hidx]
      simp [List.append_assoc]
    rw [hL] at hEq
    cases A with
    | nil =>
      rw [List.nil_append] at hEq
      injection hEq with h1 _
      exact Ev.noConfusion h1
    | cons e1 A1 =>
      rw [List.cons_append] at hEq
      injection hEq with he1 hEq1
      cases A1 with
      | nil =>
        rw [List.nil_append] at hEq1
        injection hEq1 with he2 _
        injection he2 with hh
        refine ⟨kp, f, 6, hh.symm, ?_⟩
        subst he1
        exact List.mem_cons_self _ _
      | cons e2 A2 =>
        rw [List.cons_append] at hEq1
        injection hEq1 with he2 hEq2
        cases A2 with
        | nil =>
          rw [List.nil_append] at hEq2
          injection hEq2 with he3 _
          exact Ev.noConfusion he3
        | cons e3 A3 =>
          rw [List.cons_append] at hEq2
          injection hEq2 with he3 hEq3
          obtain ⟨j, f', lay, hj, hmem⟩ := ih (kp + 1) A3 B h hEq3
          exact ⟨j, f', lay, hj,
            List.mem_cons_of_mem e1 (List.mem_cons_of_mem e2
              (List.mem_cons_of_mem e3 hmem))⟩

/-- C8: in the playback phase (for any allocation of positive overlay
handles), the slideshow shows exactly the captured files followed by
the montage, in order; the sleep after each shown image is 2 seconds,
except 6 seconds for the montage; and an overlay is only ever removed
after the overlay allocated next has been added (no blank screen). -/
theorem playback_order_and_durations (base : String) (files : List String)
    (alloc : Nat → Int) (hpos : ∀ k, 0 < alloc k)
    (hm : montage_filename base ∉ files) :
    slideshow_files (playback_screen_trace base files alloc) =
      files ++ [montage_filename base] ∧
    trace_sleeps (playback_screen_trace base files alloc) =
      files.map (fun _ => 2) ++ [6] ∧
    (∀ A B h, playback_screen_trace base files alloc =
        A ++ Ev.remove h :: B →
      ∃ j f lay, h = alloc j ∧ Ev.add (alloc (j + 1)) f lay ∈ A) := by
  have hunfold : playback_screen_trace base files alloc =
      Ev.add (alloc 0) "/assets/processing.png" 4 ::
        ((playback_slideshow (montage_filename base) alloc
            (playback_photo_filenames base files) (alloc 0) 1).1 ++
          (Ev.add (alloc ((playback_photo_filenames base files).length + 1))
              "/assets/all_done_delayed_upload.png" 5 ::
            remove_overlay_calls
              (playback_slideshow (montage_filename base) alloc
                (playback_photo_filenames base files) (alloc 0) 1).2)) := rfl
  refine ⟨?_, ?_, ?_⟩
  · rw [hunfold]
    rw [show slideshow_files (Ev.add (alloc 0) "/assets/processing.png" 4 ::
        ((playback_slideshow (montage_filename base) alloc
            (playback_photo_filenames base files) (alloc 0) 1).1 ++
          (Ev.add (alloc ((playback_photo_filenames base files).length + 1))
              "/assets/all_done_delayed_upload.png" 5 ::
            remove_overlay_calls
              (playback_slideshow (montage_filename base) alloc
                (playback_photo_filenames base files) (alloc 0) 1).2))) =
      slideshow_files
        ((playback_slideshow (montage_filename base) alloc
            (playback_photo_filenames base files) (alloc 0) 1).1 ++
          (Ev.add (alloc ((playback_photo_filenames base files).length + 1))
              "/assets/all_done_delayed_upload.png" 5 ::
            remove_overlay_calls
              (playback_slideshow (montage_filename base) alloc
                (playback_photo_filenames base files) (alloc 0) 1).2))
      from rfl,
      slideshow_files_append, slideshow_files_playback]
    rw [show slideshow_files
        (Ev.add (alloc ((playback_photo_filenames base files).length + 1))
            "/assets/all_done_delayed_upload.png" 5 ::
          remove_overlay_calls
            (playback_slideshow (montage_filename base) alloc
              (playback_photo_filenames base files) (alloc 0) 1).2) =
      slideshow_files
        (remove_overlay_calls
          (playback_slideshow (montage_filename base) alloc
            (playback_photo_filenames base files) (alloc 0) 1).2)
      from rfl,
      slideshow_files_removes]
    simp [playback_photo_filenames]
  · rw [hunfold]
    rw [show trace_sleeps (Ev.add (alloc 0) "/assets/processing.png" 4 ::
        ((playback_slideshow (montage_filename base) alloc
            (playback_photo_filenames base files) (alloc 0) 1).1 ++
          (Ev.add (alloc ((playback_photo_filenames base files).length + 1))
              "/assets/all_done_delayed_upload.png" 5 ::
            remove_overlay_calls
              (playback_slideshow (montage_filename base) alloc
                (playback_photo_filenames base files) (alloc 0) 1).2))) =
      trace_sleeps
        ((playback_slideshow (montage_filename base) alloc
            (playback_photo_filenames base files) (alloc 0) 1).1 ++
          (Ev.add (alloc ((playback_photo_filenames base files).length + 1))
              "/assets/all_done_delayed_upload.png" 5 ::
            remove_overlay_calls
              (playback_slideshow (montage_filename base) alloc
                (playback_photo_filenames base files) (alloc 0) 1).2))
      from rfl,
      trace_sleeps_append, trace_sleeps_playback]
    rw [show trace_sleeps
        (Ev.add (alloc ((playback_photo_filenames base files).length + 1))
            "/assets/all_done_delayed_upload.png" 5 ::
          remove_overlay_calls
            (playback_slideshow (montage_filename base) alloc
              (playback_photo_filenames base files) (alloc 0) 1).2) =
      trace_sleeps
        (remove_overlay_calls
          (playback_slideshow (montage_filename base) alloc
            (playback_photo_filenames base files) (alloc 0) 1).2)
      from rfl,
      trace_sleeps_removes, List.append_nil, playback_photo_filenames,
      List.map_append]
    congr 1
    · apply List.map_congr_left
      intro x hx
      have hne : x ≠ montage_filename base := by
        intro hxe
        exact hm (hxe ▸ hx)
      simp [hne]
    · simp
  · intro A B h hEq
    rw [hunfold] at hEq
    have hfin : (playback_slideshow (montage_filename base) alloc
        (playback_photo_filenames base files) (alloc 0) 1).2 =
        alloc (playback_photo_filenames base files).length := by
      have := playback_final_prev (montage_filename base) alloc
        (playback_photo_filenames base files) 0
      simpa using this
    rw [hfin] at hEq
    cases A with
    | nil =>
      rw [List.nil_append] at hEq
      injection hEq with h1 _
      exact Ev.noConfusion h1
    | cons e1 A1 =>
      rw [List.cons_append] at hEq
      injection hEq with he1 hEq1
      obtain ⟨j, f', lay, hj, hmem⟩ :=
        playback_remove_after_add (montage_filename base)
          "/assets/all_done_delayed_upload.png" alloc hpos
          (playback_photo_filenames base files) 0 A1 B h
          (by simpa [Nat.zero_add] using hEq1)
      exact ⟨j, f', lay, hj, List.mem_cons_of_mem e1 hmem⟩

theorem playback_order_and_durations_witness :
    slideshow_files
        (playback_screen_trace "b" ["p"] (fun k => (k : Int) + 1)) =
      ["p"] ++ [montage_filename "b"] ∧
    trace_sleeps
        (playback_screen_trace "b" ["p"] (fun k => (k : Int) + 1)) =
      ["p"].map (fun _ => 2) ++ [6] ∧
    (∀ A B h,
      playback_screen_trace "b" ["p"] (fun k => (k : Int) + 1) =
        A ++ Ev.remove h :: B →
      ∃ j : ℕ, ∃ f lay, h = ((j : Int) + 1) ∧
        Ev.add (((j + 1 : ℕ) : Int) + 1) f lay ∈ A) := by
  have h := playback_order_and_durations "b" ["p"] (fun k => (k : Int) + 1)
    (fun k => by positivity) (by decide)
  exact h

/-!
### The session after a button press (camera.py lines 360-416)
-/

/-- Time-indexed environment of raw GPIO observations: for each poll
instant, whether each pin's edge latch fired and the level a debounce
sample would read. -/
structure Env where
  camera_event : Nat → Bool
  camera_level : Nat → Nat
  exit_event : Nat → Bool
  exit_level : Nat → Nat

/-- GPIO edge-detection management calls made by the session. -/
inductive GpioOp where
  | remove_event_detect_camera
  | remove_event_detect_exit
  | add_event_detect_camera
  | add_event_detect_exit
  deriving Repr, DecidableEq

/-- Outcome of one pass of the main loop body after a button press. -/
inductive Outcome where
  | terminated
  | back_to_waiting
  deriving Repr, DecidableEq

/--
The GPU-effect preview window (lines 367-378): for at most window_polls
iterations (the while loop is bounded by 2 seconds of wall clock,
abstracted as a poll budget), poll ONLY the camera button; a registered
press restores the sketch effect and breaks out early.  The exit pin is
never read here.  Returns whether the second press was seen.
-/
def gpu_effects_window (env : Env) : Nat → Nat → Bool
  | 0, _ => false
  | window_polls + 1, t =>
    if poll_button (env.camera_event t) (env.camera_level t) then true
    else gpu_effects_window env window_polls (t + 1)

/-- Observable result of one session pass. -/
structure SessionResult where
  image_effect_sketch : Bool
  gpio_ops : List GpioOp
  photo_filenames : List String
  copy_pairs : List (String × String)
  outcome : Outcome
  deriving Repr, DecidableEq

/--
Body of the main loop once the capture press registered (lines
360-416): run the optional GPU-effect window (which polls only the
camera button), silence edge detection on both pins (lines 380-382),
capture the photos, play back (appending the montage to
photo_filenames), archive the mutated list, and either break out of
main (single-shot test mode, lines 406-408) or re-arm both edge
detectors and return to waiting (lines 410-416).  After the press,
the exit pin's latch and level are never consulted.
-/
def session_after_press (cfg : Config) (env : Env) (window_polls : Nat)
    (filename_base : String) : SessionResult :=
  let second_press :=
    if cfg.PROPOSE_GPU_EFFECTS then gpu_effects_window env window_polls 0
    else false
  let files := capture_loop_filenames cfg filename_base
  let files_after_playback := playback_photo_filenames filename_base files
  { image_effect_sketch := second_press
    gpio_ops :=
      [GpioOp.remove_event_detect_camera, GpioOp.remove_event_detect_exit] ++
        (if cfg.TESTMODE_AUTOPRESS_BUTTON then []
          else [GpioOp.add_event_detect_camera, GpioOp.add_event_detect_exit])
    photo_filenames := files_after_playback
    copy_pairs := archive_copy_pairs cfg files_after_playback
    outcome :=
      if cfg.TESTMODE_AUTOPRESS_BUTTON then Outcome.terminated
      else Outcome.back_to_waiting }

theorem gpu_effects_window_congr (env env' : Env)
    (hce : env.camera_event = env'.camera_event)
    (hcl : env.camera_level = env'.camera_level) :
    ∀ (n t : Nat), gpu_effects_window env n t = gpu_effects_window env' n t := by
  intro n
  induction n with
  | zero => intro t; rfl
  | succ n ih =>
    intro t
    show (if poll_button (env.camera_event t) (env.camera_level t) then true
        else gpu_effects_window env n (t + 1)) =
      (if poll_button (env'.camera_event t) (env'.camera_level t) then true
        else gpu_effects_window env' n (t + 1))
    rw [hce, hcl, ih (t + 1)]

/-- C10: once the machine has left WAITING, the exit button is inert:
the entire observable session result is unchanged under any change to
the exit pin's signals (only the camera pin is polled in the preview
window, and edge detection for both pins is removed for the rest of the
session); the session terminates only in single-shot test mode, and
outside test mode it always returns to WAITING. -/
theorem exit_ignored_after_waiting (cfg : Config) (env env' : Env)
    (window_polls : Nat) (base : String)
    (hce : env.camera_event = env'.camera_event)
    (hcl : env.camera_level = env'.camera_level) :
    session_after_press cfg env window_polls base =
      session_after_press cfg env' window_polls base ∧
    ((session_after_press cfg env window_polls base).outcome =
        Outcome.terminated ↔ cfg.TESTMODE_AUTOPRESS_BUTTON = true) ∧
    (cfg.TESTMODE_AUTOPRESS_BUTTON = false →
      (session_after_press cfg env window_polls base).outcome =
        Outcome.back_to_waiting) := by
  refine ⟨?_, ?_, ?_⟩
  · unfold session_after_press
    rw [gpu_effects_window_congr env env' hce hcl]
  · unfold session_after_press
    rcases htm : cfg.TESTMODE_AUTOPRESS_BUTTON with _ | _ <;> simp [htm]
  · intro htm
    unfold session_after_press
    simp [htm]

/-- Environment in which the exit button is pressed at every instant. -/
def envExitHeld : Env where
  camera_event := fun _ => false
  camera_level := fun _ => 1
  exit_event := fun _ => true
  exit_level := fun _ => 0

/-- Environment in which no button is ever pressed. -/
def envQuiet : Env where
  camera_event := fun _ => false
  camera_level := fun _ => 1
  exit_event := fun _ => false
  exit_level := fun _ => 1

theorem exit_ignored_after_waiting_witness :
    session_after_press cfgW envExitHeld 20 "photos/b" =
      session_after_press cfgW envQuiet 20 "photos/b" ∧
    ((session_after_press cfgW envExitHeld 20 "photos/b").outcome =
        Outcome.terminated ↔ cfgW.TESTMODE_AUTOPRESS_BUTTON = true) ∧
    (cfgW.TESTMODE_AUTOPRESS_BUTTON = false →
      (session_after_press cfgW envExitHeld 20 "photos/b").outcome =
        Outcome.back_to_waiting) :=
  exit_ignored_after_waiting cfgW envExitHeld envQuiet 20 "photos/b" rfl rfl

end PhotoBooth
